import Mathlib

/-!
Verification of the To-Do list application (`src/main.py`)

Shallow embedding of the persistence store (`load_tasks` / `save_tasks`) and
the task-list controller operations (`add_task`, `toggle_done`, `delete_task`,
`clear_completed`) of the single-file Tkinter to-do application, together with
proofs of the functional claims of its specification.

Modelling conventions:
* A Python task dict `{"text": ..., "done": ...}` is the structure `Task`.
* The JSON file content is modelled at the level of parsed JSON values
  (`JVal`); `Option JVal` stands for the outcome of reading and parsing the
  file, `none` covering a missing, unreadable or unparsable file (all of
  which `json.loads`/`read_text` turn into an exception that `load_tasks`
  catches).  `json.dumps` followed by `json.loads` is the identity on such
  values, so save-then-load round trips are faithfully modelled value-wise.
* Python `str.strip()` is `pyStrip`, dropping whitespace from both ends.
  (Whitespace is modelled for the ASCII range `' '`, `\t`, `\n`, `\r`,
  `\x0b`, `\x0c`; Python additionally strips the rare Unicode space
  characters, which no claim depends on.)
* Each GUI callback is a function from the current task list (plus the
  callback's inputs: the entry text, the listbox selection, the confirmation
  answer) to an `OpResult` recording the new in-memory list, whether
  `save_tasks` was invoked, which informational message box was shown, and
  which Python exception (if any) escaped the callback.  Whether the file
  write performed by `save_tasks` succeeds is an environment fact, passed in
  as the `saveOk` flag; when it is `false` the `save()` call raises and the
  exception propagates out of the callback (nothing in `main.py` catches it).
-/

namespace Todo

/-- A task record, `{"text": str, "done": bool}` in `main.py`. -/
structure Task where
  text : String
  done : Bool
  deriving DecidableEq, Repr

/-- The informational message boxes `main.py` shows via `messagebox.showinfo`. -/
inductive Signal where
  /-- The `showinfo("Empty task", "Type a task first.")` box in `add_task`. -/
  | emptyInput
  /-- The `showinfo("No selection", ...)` box in `toggle_done` / `delete_task`. -/
  | noSelection
  /-- The `showinfo("Cleared", ...)` box reporting the removed count. -/
  | cleared (removed : Nat)
  deriving DecidableEq, Repr

/-- Python exceptions that can escape a callback of `main.py`. -/
inductive PyErr where
  /-- An `IndexError` from `self.tasks[idx]` with `idx` out of range. -/
  | indexError
  /-- An `OSError` (disk full, permission denied, ...) escaping
  `data_file.write_text` inside `save_tasks`. -/
  | saveError
  deriving DecidableEq, Repr

/-- Observable outcome of one GUI callback. -/
structure OpResult where
  /-- The in-memory list `self.tasks` after the callback returns or raises. -/
  tasks : List Task
  /-- Whether the callback invoked `self.save()` (i.e. `save_tasks`). -/
  saved : Bool
  /-- The informational message box shown, if any. -/
  signal : Option Signal
  /-- The exception propagating out of the callback, if any. -/
  raised : Option PyErr
  deriving DecidableEq, Repr

/-- The whitespace predicate of Python's `str.strip()`, restricted to the
ASCII range (space, `\t`, `\n`, `\r`, `\x0b`, `\x0c`). -/
def isPySpace (c : Char) : Bool :=
  c = ' ' || c = '\t' || c = '\n' || c = '\r' || c = '\x0b' || c = '\x0c'

/-- Python's `s.strip()`: drop whitespace from both ends of the string. -/
def pyStrip (s : String) : String :=
  String.mk (List.rdropWhile isPySpace (List.dropWhile isPySpace s.toList))

/-- Embeds `TodoGUI.add_task` (`main.py` lines 164-172): strip the entry text; if it
is empty, show the "Empty task" box and stop; otherwise append
`{"text": text, "done": False}` and save. -/
def add_task (tasks : List Task) (raw : String) (saveOk : Bool) : OpResult :=
  let text := pyStrip raw
  if text = "" then
    { tasks := tasks, saved := false, signal := some .emptyInput, raised := none }
  else
    { tasks := tasks ++ [⟨text, false⟩]
      saved := true
      signal := none
      raised := if saveOk then none else some .saveError }

/-- Embeds `TodoGUI.toggle_done` (`main.py` lines 174-182): `sel` is the result of
`self._selected_index()` (`None` when nothing is selected).  With a
selection, `self.tasks[idx]["done"] = not self.tasks[idx]["done"]` flips the
flag in place (raising `IndexError` before any mutation if `idx` is out of
range), then saves. -/
def toggle_done (tasks : List Task) (sel : Option Nat) (saveOk : Bool) : OpResult :=
  match sel with
  | none =>
    { tasks := tasks, saved := false, signal := some .noSelection, raised := none }
  | some idx =>
    if h : idx < tasks.length then
      let t := tasks.get ⟨idx, h⟩
      { tasks := tasks.set idx { t with done := !t.done }
        saved := true
        signal := none
        raised := if saveOk then none else some .saveError }
    else
      { tasks := tasks, saved := false, signal := none, raised := some .indexError }

/-- Embeds `TodoGUI.delete_task` (`main.py` lines 184-194): reject with the
"No selection" box when `sel` is `None`; otherwise read the task's text
(raising `IndexError` if `idx` is out of range), ask for confirmation
(`confirm` is the user's `askyesno` answer; declining returns with no
mutation and no save), then `self.tasks.pop(idx)` and save. -/
def delete_task (tasks : List Task) (sel : Option Nat) (confirm : Bool)
    (saveOk : Bool) : OpResult :=
  match sel with
  | none =>
    { tasks := tasks, saved := false, signal := some .noSelection, raised := none }
  | some idx =>
    if idx < tasks.length then
      if confirm then
        { tasks := tasks.eraseIdx idx
          saved := true
          signal := none
          raised := if saveOk then none else some .saveError }
      else
        { tasks := tasks, saved := false, signal := none, raised := none }
    else
      { tasks := tasks, saved := false, signal := none, raised := some .indexError }

/-- Embeds `TodoGUI.clear_completed` (`main.py` lines 196-202): keep exactly the
tasks with `done` false, save, then show "Removed N completed task(s)".
The message box comes after `self.save()`, so it is not shown when the save
raises. -/
def clear_completed (tasks : List Task) (saveOk : Bool) : OpResult :=
  let tasks' := tasks.filter (fun t => !t.done)
  let removed := tasks.length - tasks'.length
  { tasks := tasks'
    saved := true
    signal := if saveOk then some (.cleared removed) else none
    raised := if saveOk then none else some .saveError }

/-- Parsed JSON values, the possible results of `json.loads`.  JSON numbers
are modelled as integers (no claim involves numeric fields).  An `obj` models
a Python dict produced by `json.loads`, whose keys are unique (on duplicate
keys `json.loads` keeps the last occurrence, so lookups scan from the
right). -/
inductive JVal where
  | null
  | bool (b : Bool)
  | num (n : Int)
  | str (s : String)
  | arr (items : List JVal)
  | obj (fields : List (String × JVal))

/-- Python's `item.get(k)` / `item[k]` on a dict parsed from JSON: the last binding
of the key wins, `none` when the key is absent. -/
def jGet (fields : List (String × JVal)) (k : String) : Option JVal :=
  (fields.reverse.find? (fun p => p.1 = k)).map (·.2)

mutual

/-- Python's `repr` on values parsed from JSON (used by `str` on
non-string values).  String escaping inside containers is modelled as plain
single quotes. -/
def pyRepr : JVal → String
  | .null => "None"
  | .bool b => if b then "True" else "False"
  | .num n => toString n
  | .str s => "'" ++ s ++ "'"
  | .arr items => "[" ++ pyReprArr items ++ "]"
  | .obj fields => "\x7b" ++ pyReprObj fields ++ "\x7d"

/-- Comma-separated `repr`s of the elements of a list. -/
def pyReprArr : List JVal → String
  | [] => ""
  | [v] => pyRepr v
  | v :: vs => pyRepr v ++ ", " ++ pyReprArr vs

/-- Comma-separated `'key': repr(value)` entries of a dict. -/
def pyReprObj : List (String × JVal) → String
  | [] => ""
  | [(k, v)] => "'" ++ k ++ "': " ++ pyRepr v
  | (k, v) :: fs => "'" ++ k ++ "': " ++ pyRepr v ++ ", " ++ pyReprObj fs

end

/-- Python's `str()` on values parsed from JSON. -/
def pyStr : JVal → String
  | .str s => s
  | v => pyRepr v

/-- Python's `bool()` (truthiness) on values parsed from JSON. -/
def pyBool : JVal → Bool
  | .null => false
  | .bool b => b
  | .num n => n != 0
  | .str s => s != ""
  | .arr items => !items.isEmpty
  | .obj fields => !fields.isEmpty

/-- The loop body of `load_tasks` (`main.py` lines 16-18): an element that is
a dict containing a `"text"` key contributes
`{"text": str(item["text"]), "done": bool(item.get("done", False))}`;
every other element contributes nothing. -/
def parse_item (item : JVal) : Option Task :=
  match item with
  | JVal.obj fields =>
    match jGet fields "text" with
    | some tv => some ⟨pyStr tv, (jGet fields "done").elim false pyBool⟩
    | none => none
  | _ => none

/-- Embeds `load_tasks` (`main.py` lines 9-22), applied to the parsed file content:
`none` models a missing, unreadable or unparsable file (every such condition
ends in `return []`).  A parsed list is filtered element by element through
`parse_item`; a parsed non-list yields `[]`. -/
def load_tasks (file : Option JVal) : List Task :=
  match file with
  | some (JVal.arr items) => items.filterMap parse_item
  | _ => []

/-- The record `{"text": t.text, "done": t.done}` that `json.dumps` receives
for one task. -/
def task_record (t : Task) : JVal :=
  JVal.obj [("text", JVal.str t.text), ("done", JVal.bool t.done)]

/-- Embeds `save_tasks` (`main.py` lines 25-26), at the JSON-value level: the value
whose serialization `json.dumps(tasks, indent=2)` is written to the file. -/
def save_tasks (tasks : List Task) : JVal :=
  JVal.arr (tasks.map task_record)

/-- Modelled from the spec (§4.1 `load`), for comparison with `load_tasks`:
"For each record: if it is a structured object containing a `text` field, the
result Task has `text` = string conversion of that field and `done` = boolean
conversion of the `done` field if present, else `false`.  Records missing a
`text` field are silently dropped.  If the file does not exist, is
unreadable, or its top-level content is not a sequence, returns an empty
sequence." -/
def load_spec (file : Option JVal) : List Task :=
  match file with
  | some (JVal.arr records) =>
    records.foldr (fun record acc =>
      match record with
      | JVal.obj fields =>
        if "text" ∈ fields.map Prod.fst then
          { text := ((jGet fields "text").map pyStr).getD ""
            done := ((jGet fields "done").map pyBool).getD false } :: acc
        else acc
      | _ => acc) []
  | _ => []

/-- The data-model invariant of §3 of the specification: every task's text is
non-empty after trimming. -/
def Inv (tasks : List Task) : Prop :=
  ∀ t ∈ tasks, pyStrip t.text ≠ ""

/-! ## Helper lemmas -/

theorem toList_mk (l : List Char) : (String.mk l).toList = l := rfl

/-- Stripping is idempotent: what `str.strip()` returns is left unchanged by
a second `strip()`. -/
theorem pyStrip_idem (s : String) : pyStrip (pyStrip s) = pyStrip s := by
  unfold pyStrip
  rw [toList_mk]
  have h1 : List.dropWhile isPySpace
      (List.rdropWhile isPySpace (List.dropWhile isPySpace s.toList)) =
      List.rdropWhile isPySpace (List.dropWhile isPySpace s.toList) := by
    rw [List.dropWhile_eq_self_iff]
    intro hl
    have hpre := List.rdropWhile_prefix isPySpace (List.dropWhile isPySpace s.toList)
    have hlen : 0 < (List.dropWhile isPySpace s.toList).length :=
      lt_of_lt_of_le hl hpre.length_le
    have hget : (List.rdropWhile isPySpace (List.dropWhile isPySpace s.toList)).get ⟨0, hl⟩ =
        (List.dropWhile isPySpace s.toList).get ⟨0, hlen⟩ := by
      simpa [List.get_eq_getElem] using hpre.getElem hl
    rw [hget]
    exact List.dropWhile_get_zero_not isPySpace s.toList hlen
  rw [h1, List.rdropWhile_idempotent]

/-- The tasks kept by `clear_completed` plus the done tasks account for the
whole list. -/
theorem length_filter_not_done_add (tasks : List Task) :
    (tasks.filter (fun t => !t.done)).length + tasks.countP (fun t => t.done) =
      tasks.length := by
  induction tasks with
  | nil => rfl
  | cons t ts ih =>
    cases h : t.done <;> simp [List.filter_cons, List.countP_cons, h] <;> omega

/-- Each record written by `save_tasks` parses back to the task it came
from. -/
theorem parse_task_record (t : Task) : parse_item (task_record t) = some t := rfl

/-! ## Claims -/

/-- C2: `add(rawText)` is rejected with the "empty input" signal, mutating
nothing and performing no save, iff `rawText` is empty after trimming;
otherwise it appends exactly one task `{text := trimmed, done := false}` at
the end (length grows by exactly 1, all prior elements unchanged in place)
and invokes save. -/
theorem C2_add_task (tasks : List Task) (raw : String) (saveOk : Bool) :
    ((add_task tasks raw saveOk).signal = some Signal.emptyInput ↔ pyStrip raw = "") ∧
    (pyStrip raw = "" →
      (add_task tasks raw saveOk).tasks = tasks ∧
      (add_task tasks raw saveOk).saved = false) ∧
    (pyStrip raw ≠ "" →
      (add_task tasks raw saveOk).tasks.length = tasks.length + 1 ∧
      (add_task tasks raw saveOk).tasks.take tasks.length = tasks ∧
      (add_task tasks raw saveOk).tasks.getLast? =
        some { text := pyStrip raw, done := false } ∧
      (add_task tasks raw saveOk).saved = true ∧
      (add_task tasks raw saveOk).signal = none) := by
  unfold add_task
  by_cases h : pyStrip raw = "" <;>
    simp [h, List.take_left, List.getLast?_concat]

/-- Witness for C2 at concrete inputs. -/
theorem C2_add_task_witness :
    (add_task [] " buy milk " true).tasks.getLast? =
      some { text := "buy milk", done := false } ∧
    (add_task [⟨"a", false⟩] "   " true).tasks = [⟨"a", false⟩] := by
  constructor
  · have h := ((C2_add_task [] " buy milk " true).2.2 (by decide)).2.2.1
    have e : pyStrip " buy milk " = "buy milk" := by decide
    rwa [e] at h
  · exact ((C2_add_task [⟨"a", false⟩] "   " true).2.1 (by decide)).1

/-- C3: saving any task list and then loading the saved content reproduces
the same sequence of `{text, done}` records, in order. -/
theorem C3_save_load_roundtrip (tasks : List Task) :
    load_tasks (some (save_tasks tasks)) = tasks := by
  show List.filterMap parse_item (tasks.map task_record) = tasks
  rw [List.filterMap_map]
  have h : parse_item ∘ task_record = some := funext parse_task_record
  rw [h, List.filterMap_some]

/-- C7: `clear_completed` keeps exactly the tasks whose `done` flag is false,
as a sublist (relative order preserved), reports the number of done tasks as
the removed count, and invokes save whether or not the save then succeeds and
whether or not anything was removed. -/
theorem C7_clear_completed (tasks : List Task) :
    (clear_completed tasks true).tasks = tasks.filter (fun t => !t.done) ∧
    List.Sublist (clear_completed tasks true).tasks tasks ∧
    (∀ t ∈ (clear_completed tasks true).tasks, t.done = false) ∧
    (clear_completed tasks true).tasks.length + tasks.countP (fun t => t.done) =
      tasks.length ∧
    (clear_completed tasks true).signal =
      some (Signal.cleared (tasks.countP (fun t => t.done))) ∧
    (clear_completed tasks true).saved = true ∧
    (clear_completed tasks false).saved = true := by
  refine ⟨rfl, List.filter_sublist tasks, ?_, ?_, ?_, rfl, rfl⟩
  · intro t ht
    have := (List.mem_filter.mp ht).2
    simpa using this
  · exact length_filter_not_done_add tasks
  · show some (Signal.cleared (tasks.length - (tasks.filter fun t => !t.done).length)) = _
    have h := length_filter_not_done_add tasks
    congr 2
    omega

/-- C10: after one `clear_completed` no task is done, so a second
`clear_completed` leaves the list unchanged and reports a removed count of
0. -/
theorem C10_clear_completed_idem (tasks : List Task) :
    (∀ t ∈ (clear_completed tasks true).tasks, t.done = false) ∧
    (clear_completed (clear_completed tasks true).tasks true).tasks =
      (clear_completed tasks true).tasks ∧
    (clear_completed (clear_completed tasks true).tasks true).signal =
      some (Signal.cleared 0) := by
  have hall : ∀ t ∈ tasks.filter (fun t => !t.done), (fun t : Task => !t.done) t = true :=
    fun t ht => (List.mem_filter.mp ht).2
  have hfix : (tasks.filter (fun t => !t.done)).filter (fun t => !t.done) =
      tasks.filter (fun t => !t.done) := List.filter_eq_self.mpr hall
  refine ⟨?_, ?_, ?_⟩
  · intro t ht
    have := (List.mem_filter.mp ht).2
    simpa using this
  · show (tasks.filter (fun t => !t.done)).filter (fun t => !t.done) = _
    exact hfix
  · show some (Signal.cleared ((tasks.filter fun t => !t.done).length -
      ((tasks.filter fun t => !t.done).filter fun t => !t.done).length)) = _
    rw [hfix, Nat.sub_self]

/-- Overwriting a list entry with its own value is the identity. -/
theorem set_self_eq (l : List Task) (i : Nat) (h : i < l.length) :
    l.set i l[i] = l := by
  apply List.ext_getElem?
  intro j
  rw [List.getElem?_set]
  by_cases hij : i = j
  · subst hij
    simp [h, List.getElem?_eq_getElem h]
  · simp [hij]

/-- Evaluation of `toggle_done` on an in-range selection. -/
theorem toggle_done_tasks_of_lt (tasks : List Task) (i : Nat) (saveOk : Bool)
    (h : i < tasks.length) :
    (toggle_done tasks (some i) saveOk).tasks =
      tasks.set i { text := tasks[i].text, done := !tasks[i].done } := by
  simp [toggle_done, h, List.get_eq_getElem]

/-- C4: toggling a valid index i flips only the `done` flag of the task at
position i (its text is kept, every other position is unchanged, the task
stays at position i), and toggling the same index twice restores the whole
starting list. -/
theorem C4_toggle_involution (tasks : List Task) (i : Nat) (saveOk saveOk' : Bool)
    (h : i < tasks.length) :
    (toggle_done tasks (some i) saveOk).tasks.length = tasks.length ∧
    (toggle_done tasks (some i) saveOk).tasks[i]? =
      some { text := tasks[i].text, done := !tasks[i].done } ∧
    (∀ j, j ≠ i → (toggle_done tasks (some i) saveOk).tasks[j]? = tasks[j]?) ∧
    (toggle_done (toggle_done tasks (some i) saveOk).tasks (some i) saveOk').tasks =
      tasks := by
  have e1 := toggle_done_tasks_of_lt tasks i saveOk h
  refine ⟨?_, ?_, ?_, ?_⟩
  · rw [e1, List.length_set]
  · rw [e1]
    exact List.getElem?_set_self (by exact h)
  · intro j hj
    rw [e1, List.getElem?_set, if_neg (fun hh => hj hh.symm)]
  · rw [e1]
    have h1 : i < (tasks.set i { text := tasks[i].text, done := !tasks[i].done }).length := by
      rw [List.length_set]
      exact h
    rw [toggle_done_tasks_of_lt _ i saveOk' h1]
    have hv : (tasks.set i { text := tasks[i].text, done := !tasks[i].done })[i] =
        { text := tasks[i].text, done := !tasks[i].done } := by
      have h2 := List.getElem?_eq_getElem h1
      rw [List.getElem?_set_self (by exact h)] at h2
      exact (Option.some_injective _ h2.symm)
    rw [hv, List.set_set]
    have hgoal := set_self_eq tasks i h
    simp only [Bool.not_not]
    exact hgoal

/-- Witness for C4 at a concrete list and index. -/
theorem C4_toggle_involution_witness :
    (toggle_done [⟨"a", false⟩] (some 0) true).tasks[0]? =
      some { text := "a", done := true } ∧
    (toggle_done (toggle_done [⟨"a", false⟩] (some 0) true).tasks (some 0) true).tasks =
      [⟨"a", false⟩] := by
  have h := C4_toggle_involution [⟨"a", false⟩] 0 true true (by decide)
  exact ⟨h.2.1, h.2.2.2⟩

/-- C6: deleting a valid, confirmed index i drops exactly the task at
position i: the length shrinks by one, positions before i are unchanged,
positions from i on hold the tasks formerly one position to the right, and a
save is invoked. -/
theorem C6_delete_shift (tasks : List Task) (i : Nat) (saveOk : Bool)
    (h : i < tasks.length) :
    (delete_task tasks (some i) true saveOk).tasks.length + 1 = tasks.length ∧
    (∀ j, j < i → (delete_task tasks (some i) true saveOk).tasks[j]? = tasks[j]?) ∧
    (∀ j, i ≤ j → (delete_task tasks (some i) true saveOk).tasks[j]? = tasks[j + 1]?) ∧
    (delete_task tasks (some i) true saveOk).saved = true := by
  have e : (delete_task tasks (some i) true saveOk).tasks = tasks.eraseIdx i := by
    simp [delete_task, h]
  have hsaved : (delete_task tasks (some i) true saveOk).saved = true := by
    simp [delete_task, h]
  have hlen : (List.take i tasks).length = i := by
    rw [List.length_take]
    exact inf_eq_left.mpr h.le
  refine ⟨?_, ?_, ?_, hsaved⟩
  · rw [e, List.length_eraseIdx, if_pos h]
    omega
  · intro j hj
    rw [e, List.eraseIdx_eq_take_drop_succ,
      List.getElem?_append_left (by rw [hlen]; exact hj), List.getElem?_take, if_pos hj]
  · intro j hj
    rw [e, List.eraseIdx_eq_take_drop_succ,
      List.getElem?_append_right (by rw [hlen]; exact hj),
      hlen, List.getElem?_drop]
    have harith : i + 1 + (j - i) = j + 1 := by omega
    rw [harith]

/-- Witness for C6 at a concrete list and index. -/
theorem C6_delete_shift_witness :
    (delete_task [⟨"a", false⟩, ⟨"b", true⟩] (some 0) true true).tasks[0]? =
      some (⟨"b", true⟩ : Task) := by
  have h := C6_delete_shift [⟨"a", false⟩, ⟨"b", true⟩] 0 true (by decide)
  have h0 := h.2.2.1 0 (by decide)
  simpa using h0

/-- Counterexample to C5 as stated: on the one-task list with the
out-of-bounds index 1, `toggle_done` does not show the "no selection" box —
an `IndexError` propagates instead. -/
theorem C5_counterexample :
    (toggle_done [⟨"a", false⟩] (some 1) true).signal ≠ some Signal.noSelection ∧
    (toggle_done [⟨"a", false⟩] (some 1) true).raised = some PyErr.indexError := by
  decide

/-- C5 (amended): with no selection, `toggle_done` and `delete_task` are
rejected with the "no selection" signal, mutate nothing and never save; with
an out-of-bounds index they likewise mutate nothing and never save, but an
`IndexError` propagates instead of the "no selection" signal (such an index
never arises in the running program, where a non-empty selection is always in
range). -/
theorem C5_invalid_index (tasks : List Task) (i : Nat) (confirm saveOk : Bool)
    (h : tasks.length ≤ i) :
    toggle_done tasks none saveOk =
      { tasks := tasks, saved := false, signal := some Signal.noSelection,
        raised := none } ∧
    delete_task tasks none confirm saveOk =
      { tasks := tasks, saved := false, signal := some Signal.noSelection,
        raised := none } ∧
    toggle_done tasks (some i) saveOk =
      { tasks := tasks, saved := false, signal := none,
        raised := some PyErr.indexError } ∧
    delete_task tasks (some i) confirm saveOk =
      { tasks := tasks, saved := false, signal := none,
        raised := some PyErr.indexError } := by
  have h' : ¬ i < tasks.length := not_lt.mpr h
  refine ⟨rfl, rfl, ?_, ?_⟩ <;> simp [toggle_done, delete_task, h']

/-- Witness for the amended C5 at a concrete list and index. -/
theorem C5_invalid_index_witness :
    toggle_done [⟨"a", false⟩] none true =
      { tasks := [⟨"a", false⟩], saved := false,
        signal := some Signal.noSelection, raised := none } ∧
    delete_task [⟨"a", false⟩] (some 3) true true =
      { tasks := [⟨"a", false⟩], saved := false, signal := none,
        raised := some PyErr.indexError } := by
  have h := C5_invalid_index [⟨"a", false⟩] 3 true true (by decide)
  exact ⟨h.1, h.2.2.2⟩

/-- Counterexample to C1 as stated: loading a file whose single record has a
whitespace-only text field produces a list violating the non-empty-trimmed
-text invariant. -/
theorem C1_counterexample :
    ¬ Inv (load_tasks (some (JVal.arr [JVal.obj [("text", JVal.str "   ")]]))) := by
  intro hInv
  have hmem : (⟨"   ", false⟩ : Task) ∈
      load_tasks (some (JVal.arr [JVal.obj [("text", JVal.str "   ")]])) := by
    have e : load_tasks (some (JVal.arr [JVal.obj [("text", JVal.str "   ")]])) =
        [⟨"   ", false⟩] := by decide
    rw [e]
    exact List.mem_singleton.mpr rfl
  exact hInv _ hmem (by decide)

/-- C1 (amended): the invariant "every task's text is non-empty after
trimming" is preserved by each of the four controller operations; `load`
establishes it only when no record of the stored file carries an
empty-after-trimming text field (a hand-edited file with a whitespace-only
text yields a violating task at startup). -/
theorem C1_inv_preserved (tasks : List Task) (raw : String) (sel : Option Nat)
    (confirm saveOk : Bool) (hInv : Inv tasks) :
    Inv (add_task tasks raw saveOk).tasks ∧
    Inv (toggle_done tasks sel saveOk).tasks ∧
    Inv (delete_task tasks sel confirm saveOk).tasks ∧
    Inv (clear_completed tasks saveOk).tasks := by
  refine ⟨?_, ?_, ?_, ?_⟩
  · by_cases h : pyStrip raw = ""
    · simpa [add_task, h] using hInv
    · intro t ht
      simp only [add_task, if_neg h] at ht
      rcases List.mem_append.mp ht with h1 | h1
      · exact hInv t h1
      · have h2 : t = ⟨pyStrip raw, false⟩ := List.mem_singleton.mp h1
        rw [h2]
        show pyStrip (pyStrip raw) ≠ ""
        rw [pyStrip_idem]
        exact h
  · match sel with
    | none => simpa [toggle_done] using hInv
    | some i =>
      by_cases h : i < tasks.length
      · rw [toggle_done_tasks_of_lt tasks i saveOk h]
        intro t ht
        rcases List.mem_or_eq_of_mem_set ht with h1 | h1
        · exact hInv t h1
        · rw [h1]
          show pyStrip tasks[i].text ≠ ""
          exact hInv tasks[i] (tasks.get_mem i h)
      · simpa [toggle_done, h] using hInv
  · match sel with
    | none => simpa [delete_task] using hInv
    | some i =>
      by_cases h : i < tasks.length
      · cases confirm with
        | false => simpa [delete_task, h] using hInv
        | true =>
          intro t ht
          simp only [delete_task, if_pos h] at ht
          exact hInv t (List.mem_of_mem_eraseIdx ht)
      · simpa [delete_task, h] using hInv
  · intro t ht
    have h1 : t ∈ tasks.filter (fun t => !t.done) := ht
    exact hInv t (List.mem_filter.mp h1).1

/-- Witness for the amended C1 at concrete inputs. -/
theorem C1_inv_preserved_witness :
    Inv (add_task [⟨"a", false⟩] "  x " true).tasks ∧
    Inv (clear_completed [⟨"a", false⟩] true).tasks := by
  have hInv : Inv [(⟨"a", false⟩ : Task)] := by
    intro t ht
    rw [List.mem_singleton.mp ht]
    decide
  have h := C1_inv_preserved [⟨"a", false⟩] "  x " none true true hInv
  exact ⟨h.1, h.2.2.2⟩

/-- C9: when the file write performed by the save following a mutation
fails, the failure propagates out of the callback (it is not swallowed) and
the in-memory list keeps the already-applied mutation — no rollback. -/
theorem C9_save_failure (tasks : List Task) (raw : String) (i : Nat)
    (hraw : pyStrip raw ≠ "") (hi : i < tasks.length) :
    (add_task tasks raw false).raised = some PyErr.saveError ∧
    (add_task tasks raw false).tasks = tasks ++ [⟨pyStrip raw, false⟩] ∧
    (toggle_done tasks (some i) false).raised = some PyErr.saveError ∧
    (toggle_done tasks (some i) false).tasks =
      tasks.set i { text := tasks[i].text, done := !tasks[i].done } ∧
    (delete_task tasks (some i) true false).raised = some PyErr.saveError ∧
    (delete_task tasks (some i) true false).tasks = tasks.eraseIdx i ∧
    (clear_completed tasks false).raised = some PyErr.saveError ∧
    (clear_completed tasks false).tasks = tasks.filter (fun t => !t.done) := by
  refine ⟨?_, ?_, ?_, toggle_done_tasks_of_lt tasks i false hi, ?_, ?_, rfl, rfl⟩ <;>
    simp [add_task, toggle_done, delete_task, hraw, hi]

/-- Witness for C9 at a concrete list, raw text and index. -/
theorem C9_save_failure_witness :
    (add_task [⟨"a", true⟩] "x" false).raised = some PyErr.saveError ∧
    (toggle_done [⟨"a", true⟩] (some 0) false).raised = some PyErr.saveError ∧
    (delete_task [⟨"a", true⟩] (some 0) true false).raised = some PyErr.saveError ∧
    (clear_completed [⟨"a", true⟩] false).raised = some PyErr.saveError := by
  have h := C9_save_failure [⟨"a", true⟩] "x" 0 (by decide) (by decide)
  exact ⟨h.1, h.2.2.1, h.2.2.2.2.1, h.2.2.2.2.2.2.1⟩

/-- Witness for C7 on the spec's worked example `[A:false, B:true, C:true,
D:false]`. -/
theorem C7_clear_completed_witness :
    (clear_completed [⟨"A", false⟩, ⟨"B", true⟩, ⟨"C", true⟩, ⟨"D", false⟩] true).tasks =
      [⟨"A", false⟩, ⟨"D", false⟩] ∧
    (clear_completed [⟨"A", false⟩, ⟨"B", true⟩, ⟨"C", true⟩, ⟨"D", false⟩] true).signal =
      some (Signal.cleared 2) := by
  have h := C7_clear_completed [⟨"A", false⟩, ⟨"B", true⟩, ⟨"C", true⟩, ⟨"D", false⟩]
  constructor
  · rw [h.1]
    decide
  · have h5 := h.2.2.2.2.1
    simpa using h5

/-- Witness for C10 at a concrete list. -/
theorem C10_clear_completed_idem_witness :
    (clear_completed (clear_completed [⟨"a", true⟩, ⟨"b", false⟩] true).tasks true).signal =
      some (Signal.cleared 0) :=
  (C10_clear_completed_idem [⟨"a", true⟩, ⟨"b", false⟩]).2.2

/-- The lookup `jGet` answers `none` exactly when `k` is not among the dict's
keys (Python's `k in item` test). -/
theorem jGet_none_iff (fields : List (String × JVal)) (k : String) :
    jGet fields k = none ↔ ¬ k ∈ fields.map Prod.fst := by
  unfold jGet
  rw [Option.map_eq_none', List.find?_eq_none]
  constructor
  · intro h hk
    rcases List.mem_map.mp hk with ⟨p, hp, hpk⟩
    exact absurd (by simpa using hpk) (by simpa using h p (List.mem_reverse.mpr hp))
  · intro h p hp hpk
    exact h (List.mem_map.mpr ⟨p, List.mem_reverse.mp hp, by simpa using hpk⟩)

/-- Defaulting via `Option.elim` as used in `load_tasks` agrees with the map-then-default
phrasing of the spec's "boolean conversion of the `done` field if present,
else `false`". -/
theorem elim_map_getD (o : Option JVal) :
    o.elim false pyBool = (o.map pyBool).getD false := by
  cases o <;> rfl

/-- One unfolding step of the spec-modelled loader. -/
theorem load_spec_cons (r : JVal) (rs : List JVal) :
    load_spec (some (JVal.arr (r :: rs))) =
      (match r with
       | JVal.obj fields =>
         if "text" ∈ fields.map Prod.fst then
           { text := ((jGet fields "text").map pyStr).getD ""
             done := ((jGet fields "done").map pyBool).getD false } ::
             load_spec (some (JVal.arr rs))
         else load_spec (some (JVal.arr rs))
       | _ => load_spec (some (JVal.arr rs))) := rfl

/-- C8: `load_tasks` never fails and behaves record-for-record as the spec
describes it: it agrees with the spec-modelled loader on every file content
(dropping records without a `text` key, converting `text` with `str` and
`done` with `bool` defaulting to false, ignoring extra fields, and returning
`[]` for a missing/unreadable/unparsable file or a non-sequence top level),
and reproduces the spec's worked example. -/
theorem C8_load_spec_agree (file : Option JVal) :
    load_tasks file = load_spec file ∧
    load_tasks none = [] ∧
    load_tasks (some (JVal.arr [JVal.obj [("text", JVal.str "x")],
        JVal.obj [("foo", JVal.str "bar")],
        JVal.obj [("text", JVal.str "y"), ("done", JVal.bool true)]])) =
      [{ text := "x", done := false }, { text := "y", done := true }] := by
  refine ⟨?_, rfl, by decide⟩
  match file with
  | none => rfl
  | some JVal.null => rfl
  | some (JVal.bool _) => rfl
  | some (JVal.num _) => rfl
  | some (JVal.str _) => rfl
  | some (JVal.obj _) => rfl
  | some (JVal.arr records) =>
    show records.filterMap parse_item = load_spec (some (JVal.arr records))
    induction records with
    | nil => rfl
    | cons r rs ih =>
      rw [List.filterMap_cons, load_spec_cons]
      cases r with
      | null => simpa [parse_item] using ih
      | bool b => simpa [parse_item] using ih
      | num n => simpa [parse_item] using ih
      | str s => simpa [parse_item] using ih
      | arr xs => simpa [parse_item] using ih
      | obj fields =>
        cases hget : jGet fields "text" with
        | none =>
          have hk : ¬ "text" ∈ fields.map Prod.fst := (jGet_none_iff fields "text").mp hget
          simpa [parse_item, hget, hk] using ih
        | some tv =>
          have hk : "text" ∈ fields.map Prod.fst := by
            by_contra hk
            rw [(jGet_none_iff fields "text").mpr hk] at hget
            cases hget
          simpa [parse_item, hget, hk, elim_map_getD] using ih

end Todo
